import Mathlib

/-!
Shallow embedding of the two argument-echoing programs of
hedronvision/bazel-compile-commands-extractor, `print_args.cc` and
`print_args.cpp`, together with proofs about their behaviour.

The process argument vector `argv` is modelled as a `List String` whose
head (index 0) is the program's own invocation name, so `argc` is
`argv.length`.  Standard output is modelled as the ordered list of write
operations the program performs; the final stdout contents are the
concatenation of those writes.  Both programs end with `return 1`, so the
exit code is the constant `1`, and neither writes to standard error.
-/

namespace PrintArgs

/-- Sentinel emitted before the arguments (without the trailing newline). -/
def beginSentinel : String := "===HEDRON_COMPILE_COMMANDS_BEGIN_ARGS==="

/-- Sentinel emitted after the arguments (without the trailing newline). -/
def endSentinel : String := "===HEDRON_COMPILE_COMMANDS_END_ARGS==="

/-- Concatenation of an ordered list of stream writes into the final
stdout contents. -/
def concatWrites : List String → String
  | [] => ""
  | s :: rest => s ++ concatWrites rest

/-- Writes performed by the loop of `print_args.cc`:
`for (int i = 1; i < argc; ++i) std::cout << argv[i] << "\n";`.
Each iteration performs two stream insertions: the argument itself and
then the newline.  The loop runs while `i < argc`; the extra `fuel`
argument (the number of remaining iterations, at most `argc - i`) only
makes the recursion structural and never cuts the loop short when it is
started with `fuel = argc`. -/
def ccLoopFrom (argv : List String) : Nat → Nat → List String
  | _, 0 => []
  | i, fuel + 1 =>
    if i < argv.length then
      argv.getD i "" :: "\n" :: ccLoopFrom argv (i + 1) fuel
    else []

/-- Writes performed by the loop of `print_args.cpp`:
`for (int i = 1; i < argc; ++i) printf("%s\n", argv[i]);`.
Each iteration performs a single write of the argument followed by a
newline, since `printf` formats `"%s\n"` into one output. -/
def cppLoopFrom (argv : List String) : Nat → Nat → List String
  | _, 0 => []
  | i, fuel + 1 =>
    if i < argv.length then
      (argv.getD i "" ++ "\n") :: cppLoopFrom argv (i + 1) fuel
    else []

/-- The argument-printing writes of `print_args.cc`, starting at `i = 1`. -/
def ccArgWrites (argv : List String) : List String :=
  ccLoopFrom argv 1 argv.length

/-- The argument-printing writes of `print_args.cpp`, starting at `i = 1`. -/
def cppArgWrites (argv : List String) : List String :=
  cppLoopFrom argv 1 argv.length

/-- All stdout writes of `print_args.cc`, in program order: the begin
sentinel line, the loop's writes, the end sentinel line. -/
def cc_main_writes (argv : List String) : List String :=
  "===HEDRON_COMPILE_COMMANDS_BEGIN_ARGS===\n" ::
    (ccArgWrites argv ++ ["===HEDRON_COMPILE_COMMANDS_END_ARGS===\n"])

/-- All stdout writes of `print_args.cpp`, in program order. -/
def cpp_main_writes (argv : List String) : List String :=
  "===HEDRON_COMPILE_COMMANDS_BEGIN_ARGS===\n" ::
    (cppArgWrites argv ++ ["===HEDRON_COMPILE_COMMANDS_END_ARGS===\n"])

/-- Result of a finished process: accumulated stdout, accumulated stderr,
and the exit code. -/
structure ProcResult where
  stdout : String
  stderr : String
  exitCode : Nat
deriving DecidableEq, Repr

/-- Running `print_args.cc` on an argument vector.  The program writes
only to stdout and ends with `return 1`. -/
def cc_run (argv : List String) : ProcResult :=
  { stdout := concatWrites (cc_main_writes argv), stderr := "", exitCode := 1 }

/-- Running `print_args.cpp` on an argument vector. -/
def cpp_run (argv : List String) : ProcResult :=
  { stdout := concatWrites (cpp_main_writes argv), stderr := "", exitCode := 1 }

/-- The process environment beyond the argument vector: standard input
contents, environment variables, and a file system.  Neither program
contains any statement that reads or writes these, so a run returns them
unchanged and its result does not depend on them. -/
structure World where
  stdinData : String
  env : List (String × String)
  fs : List (String × String)
deriving DecidableEq, Repr

/-- Running `print_args.cc` inside a full world: the source contains no
read of stdin, the environment, the file system or the network, and no
write outside stdout, so the world passes through untouched. -/
def cc_run_world (argv : List String) (w : World) : ProcResult × World :=
  (cc_run argv, w)

/-- Running `print_args.cpp` inside a full world. -/
def cpp_run_world (argv : List String) (w : World) : ProcResult × World :=
  (cpp_run argv, w)

/-- Observable side effects a process step could have. -/
inductive Effect where
  | writeStdout : String → Effect
  | writeStderr : String → Effect
  | readStdin : Effect
  | fsAccess : String → Effect
  | netAccess : String → Effect
deriving DecidableEq, Repr

/-- Whether an effect is a write to standard output. -/
def effectIsStdoutWrite : Effect → Bool
  | Effect.writeStdout _ => true
  | _ => false

/-- The effect trace of `print_args.cc`: every statement of `main` is a
stream insertion into `std::cout`, so each write becomes a stdout-write
effect and nothing else is emitted. -/
def cc_trace (argv : List String) : List Effect :=
  (cc_main_writes argv).map Effect.writeStdout

/-- The effect trace of `print_args.cpp`: every statement of `main` is a
`printf` call, i.e. a write to standard output. -/
def cpp_trace (argv : List String) : List Effect :=
  (cpp_main_writes argv).map Effect.writeStdout

/-- The indices at which the loop `for (int i = 1; i < argc; ++i)` reads
`argv`, for a vector of length `argc`, recorded in iteration order.  The
same loop header occurs in both source files. -/
def loopReadsFrom (argc : Nat) : Nat → Nat → List Nat
  | _, 0 => []
  | i, fuel + 1 =>
    if i < argc then i :: loopReadsFrom argc (i + 1) fuel
    else []

/-- The indices at which either program's loop reads the argument
vector, starting from `i = 1`. -/
def loopReads (argv : List String) : List Nat :=
  loopReadsFrom argv.length 1 argv.length

/-- The output contract, written from the specification's words: the
begin-sentinel line, then each element of `args` (the arguments beyond
the program name) verbatim followed by a newline, in original order,
then the end-sentinel line. -/
def spec_output (args : List String) : String :=
  beginSentinel ++ "\n" ++
    concatWrites (args.map (fun s => s ++ "\n")) ++
    (endSentinel ++ "\n")

/-- Writes of the cc loop restated over the tail of the list: each element
contributes itself and then a separate newline write. -/
def pairWrites : List String → List String
  | [] => []
  | s :: rest => s :: "\n" :: pairWrites rest

theorem concatWrites_append (l₁ l₂ : List String) :
    concatWrites (l₁ ++ l₂) = concatWrites l₁ ++ concatWrites l₂ := by
  induction l₁ with
  | nil => simp [concatWrites]
  | cons s rest ih => simp [concatWrites, ih, String.append_assoc]

theorem ccLoopFrom_eq (argv : List String) (i fuel : Nat)
    (h : argv.length ≤ i + fuel) :
    ccLoopFrom argv i fuel = pairWrites (argv.drop i) := by
  induction fuel generalizing i with
  | zero =>
    rw [List.drop_eq_nil_of_le (by omega)]
    rfl
  | succ n ih =>
    rw [ccLoopFrom]
    split
    · next hlt =>
      rw [List.drop_eq_getElem_cons hlt, pairWrites, ih (i + 1) (by omega),
        List.getD_eq_getElem argv "" hlt]
    · next hge =>
      rw [List.drop_eq_nil_of_le (by omega)]
      rfl

theorem cppLoopFrom_eq (argv : List String) (i fuel : Nat)
    (h : argv.length ≤ i + fuel) :
    cppLoopFrom argv i fuel = (argv.drop i).map (fun s => s ++ "\n") := by
  induction fuel generalizing i with
  | zero =>
    rw [List.drop_eq_nil_of_le (by omega)]
    rfl
  | succ n ih =>
    rw [cppLoopFrom]
    split
    · next hlt =>
      rw [List.drop_eq_getElem_cons hlt, List.map_cons, ih (i + 1) (by omega),
        List.getD_eq_getElem argv "" hlt]
    · next hge =>
      rw [List.drop_eq_nil_of_le (by omega)]
      rfl

theorem ccArgWrites_eq (argv : List String) :
    ccArgWrites argv = pairWrites (argv.drop 1) :=
  ccLoopFrom_eq argv 1 argv.length (by omega)

theorem cppArgWrites_eq (argv : List String) :
    cppArgWrites argv = (argv.drop 1).map (fun s => s ++ "\n") :=
  cppLoopFrom_eq argv 1 argv.length (by omega)

theorem concat_pairWrites (l : List String) :
    concatWrites (pairWrites l) = concatWrites (l.map (fun s => s ++ "\n")) := by
  induction l with
  | nil => rfl
  | cons s rest ih =>
    simp only [pairWrites, List.map_cons, concatWrites, ih, String.append_assoc]

theorem pairWrites_length (l : List String) :
    (pairWrites l).length = 2 * l.length := by
  induction l with
  | nil => rfl
  | cons s rest ih => simp [pairWrites, ih]; omega

theorem pairWrites_getElem (l : List String) (k : Nat) :
    (pairWrites l)[2 * k]? = l[k]? := by
  induction l generalizing k with
  | nil => simp [pairWrites]
  | cons s rest ih =>
    match k with
    | 0 => simp [pairWrites]
    | k + 1 =>
      have h2 : 2 * (k + 1) = 2 * k + 1 + 1 := by omega
      rw [h2, pairWrites, List.getElem?_cons_succ, List.getElem?_cons_succ,
        ih, List.getElem?_cons_succ]

theorem loopReadsFrom_eq (argc i fuel : Nat) (h : argc ≤ i + fuel) :
    loopReadsFrom argc i fuel = List.range' i (argc - i) := by
  induction fuel generalizing i with
  | zero =>
    have : argc - i = 0 := by omega
    rw [this]
    rfl
  | succ n ih =>
    rw [loopReadsFrom]
    split
    · next hlt =>
      have hk : argc - i = (argc - (i + 1)) + 1 := by omega
      rw [hk, List.range'_succ i (argc - (i + 1)) 1, ih (i + 1) (by omega)]
    · next hge =>
      have : argc - i = 0 := by omega
      rw [this]
      rfl

theorem cc_stdout_eq (argv : List String) :
    (cc_run argv).stdout =
      "===HEDRON_COMPILE_COMMANDS_BEGIN_ARGS===\n" ++
        (concatWrites ((argv.drop 1).map (fun s => s ++ "\n")) ++
          "===HEDRON_COMPILE_COMMANDS_END_ARGS===\n") := by
  simp only [cc_run, cc_main_writes, concatWrites, concatWrites_append,
    ccArgWrites_eq, concat_pairWrites, String.append_empty]

theorem cpp_stdout_eq (argv : List String) :
    (cpp_run argv).stdout =
      "===HEDRON_COMPILE_COMMANDS_BEGIN_ARGS===\n" ++
        (concatWrites ((argv.drop 1).map (fun s => s ++ "\n")) ++
          "===HEDRON_COMPILE_COMMANDS_END_ARGS===\n") := by
  simp only [cpp_run, cpp_main_writes, concatWrites, concatWrites_append,
    cppArgWrites_eq, String.append_empty]

theorem spec_output_eq (args : List String) :
    spec_output args =
      "===HEDRON_COMPILE_COMMANDS_BEGIN_ARGS===\n" ++
        (concatWrites (args.map (fun s => s ++ "\n")) ++
          "===HEDRON_COMPILE_COMMANDS_END_ARGS===\n") := by
  have hb : beginSentinel ++ "\n" = "===HEDRON_COMPILE_COMMANDS_BEGIN_ARGS===\n" := rfl
  have he : (endSentinel ++ "\n" : String) =
      "===HEDRON_COMPILE_COMMANDS_END_ARGS===\n" := rfl
  rw [spec_output, String.append_assoc, hb, he]

/-- C1: for every program name and every finite sequence of arguments
`args` (including the empty one), both programs' standard output is
exactly the begin-sentinel line, then each element of `args` verbatim on
its own line in original order, then the end-sentinel line. -/
theorem c1_output_matches_spec (name : String) (args : List String) :
    (cc_run (name :: args)).stdout = spec_output args ∧
    (cpp_run (name :: args)).stdout = spec_output args := by
  constructor
  · rw [cc_stdout_eq, spec_output_eq, List.drop_succ_cons, List.drop_zero]
  · rw [cpp_stdout_eq, spec_output_eq, List.drop_succ_cons, List.drop_zero]

/-- C2: for every argument vector, regardless of its content or length,
both programs terminate with exit code exactly 1. -/
theorem c2_exit_code_always_one (argv : List String) :
    (cc_run argv).exitCode = 1 ∧ (cpp_run argv).exitCode = 1 :=
  ⟨rfl, rfl⟩

/-- C3: the two programs are behaviourally equivalent: on every argument
vector they produce identical stdout, identical stderr and the same exit
code. -/
theorem c3_cc_cpp_equivalent (argv : List String) :
    cc_run argv = cpp_run argv := by
  have h : (cc_run argv).stdout = (cpp_run argv).stdout := by
    rw [cc_stdout_eq, cpp_stdout_eq]
  simp only [cc_run, cpp_run] at h ⊢
  simp [h]

/-- C4: each element of the argument vector after the program name is
written byte-for-byte: in `print_args.cc` the loop's write for index `i`
is exactly the element itself (followed by a separate newline write), and
in `print_args.cpp` it is exactly the element followed by a newline.
Empty strings and whitespace pass through unmodified. -/
theorem c4_arguments_verbatim (argv : List String) (i : Nat)
    (h1 : 1 ≤ i) (h : i < argv.length) :
    (ccArgWrites argv)[2 * (i - 1)]? = some argv[i] ∧
    (cppArgWrites argv)[i - 1]? = some (argv[i] ++ "\n") := by
  have hi : 1 + (i - 1) = i := by omega
  constructor
  · rw [ccArgWrites_eq, pairWrites_getElem, List.getElem?_drop, hi,
      List.getElem?_eq_getElem h]
  · rw [cppArgWrites_eq, List.getElem?_map, List.getElem?_drop, hi,
      List.getElem?_eq_getElem h]
    rfl

/-- Witness for C4 at the concrete vector `["prog", "a b", ""]` and
index 2, an empty-string argument: the cc loop writes the empty string
itself and the cpp loop writes a bare newline. -/
theorem c4_arguments_verbatim_witness :
    (ccArgWrites ["prog", "a b", ""])[2]? = some "" ∧
    (cppArgWrites ["prog", "a b", ""])[1]? = some "\n" := by
  have h := c4_arguments_verbatim ["prog", "a b", ""] 2 (by decide) (by decide)
  simpa using h

/-- C5: the program name (index 0 of the argument vector) never reaches
the output: two runs that differ only in the program name have identical
stdout, stderr and exit code, for both programs. -/
theorem c5_program_name_ignored (n₁ n₂ : String) (args : List String) :
    cc_run (n₁ :: args) = cc_run (n₂ :: args) ∧
    cpp_run (n₁ :: args) = cpp_run (n₂ :: args) := by
  constructor
  · simp only [cc_run, cc_main_writes, ccArgWrites_eq, List.drop_succ_cons,
      List.drop_zero]
  · simp only [cpp_run, cpp_main_writes, cppArgWrites_eq, List.drop_succ_cons,
      List.drop_zero]

/-- C6: both programs run to completion in a single linear pass: the loop
performs exactly `argc - 1` iterations (its reads list has that length),
the total number of stream writes is finite and determined by `argc`
alone, and the return statement is reached with exit code 1. -/
theorem c6_single_pass_terminates (argv : List String) :
    (loopReads argv).length = argv.length - 1 ∧
    (cc_main_writes argv).length = 2 * (argv.length - 1) + 2 ∧
    (cpp_main_writes argv).length = (argv.length - 1) + 2 ∧
    (cc_run argv).exitCode = 1 ∧ (cpp_run argv).exitCode = 1 := by
  refine ⟨?_, ?_, ?_, rfl, rfl⟩
  · rw [loopReads, loopReadsFrom_eq argv.length 1 argv.length (by omega),
      List.length_range']
  · simp [cc_main_writes, ccArgWrites_eq, pairWrites_length]
  · simp [cpp_main_writes, cppArgWrites_eq]

/-- C7: both programs are deterministic and depend on nothing but the
argument vector: for any two worlds (stdin contents, environment
variables, file system) the results of running on the same argument
vector are identical. -/
theorem c7_deterministic (argv : List String) (w₁ w₂ : World) :
    (cc_run_world argv w₁).1 = (cc_run_world argv w₂).1 ∧
    (cpp_run_world argv w₁).1 = (cpp_run_world argv w₂).1 :=
  ⟨rfl, rfl⟩

/-- C8: the only side effect of either program is writing to standard
output: every effect in the trace is a stdout write, standard error stays
empty, and the world (stdin, environment, file system) is returned
unchanged. -/
theorem c8_only_stdout_effects (argv : List String) (w : World) :
    (cc_trace argv).all effectIsStdoutWrite = true ∧
    (cpp_trace argv).all effectIsStdoutWrite = true ∧
    (cc_run argv).stderr = "" ∧ (cpp_run argv).stderr = "" ∧
    (cc_run_world argv w).2 = w ∧ (cpp_run_world argv w).2 = w := by
  refine ⟨?_, ?_, rfl, rfl, rfl, rfl⟩
  · simp [cc_trace, List.all_map, effectIsStdoutWrite, Function.comp]
  · simp [cpp_trace, List.all_map, effectIsStdoutWrite, Function.comp]

/-- C9: the map from argument vectors to output is not injective: the
single argument containing an embedded newline and the two arguments
obtained by splitting at it are distinct vectors producing byte-identical
results under both programs, so no decoder of the output can recover the
argument vector on every input. -/
theorem c9_output_not_injective :
    ∃ a b : List String, a ≠ b ∧ cc_run a = cc_run b ∧ cpp_run a = cpp_run b := by
  refine ⟨["p", "a\nb"], ["p", "a", "b"], by decide, by decide, by decide⟩

/-- C10: for any argument vector the loop reads `argv` exactly at the
indices 1 through `argc - 1` (so never out of range), and in the
degenerate case of an entirely empty argument vector (`argc = 0`) the
loop body never runs and each program still emits exactly the two
sentinel lines and returns 1. -/
theorem c10_reads_in_bounds :
    (∀ argv : List String, loopReads argv = List.range' 1 (argv.length - 1)) ∧
    cc_run [] =
      ⟨"===HEDRON_COMPILE_COMMANDS_BEGIN_ARGS===\n===HEDRON_COMPILE_COMMANDS_END_ARGS===\n",
        "", 1⟩ ∧
    cpp_run [] =
      ⟨"===HEDRON_COMPILE_COMMANDS_BEGIN_ARGS===\n===HEDRON_COMPILE_COMMANDS_END_ARGS===\n",
        "", 1⟩ := by
  refine ⟨fun argv => ?_, by decide, by decide⟩
  exact loopReadsFrom_eq argv.length 1 argv.length (by omega)

end PrintArgs
